import Mathlib

/-!
Shallow embedding of the `openclaw-tool-guard` metrics pipeline:
the SQLite-backed metrics store (`MetricsDatabase` in `src/database.ts`),
the ingestion buffer (`MetricsCollector` in `src/metrics-collector.ts`),
and the dashboard HTTP service (`DashboardServer` in `src/dashboard-server.ts`).

Tables are modelled as lists of rows; SQL `ON CONFLICT ... DO UPDATE`
upserts as keyed list updates; JavaScript `Date`/ISO-8601 formatting as an
explicit proleptic-Gregorian conversion from milliseconds since the Unix
epoch; token counts as `Int` and USD costs as `Rat`.
-/

namespace ToolGuard

/-! ### JS string/number helpers

`sliceTo s n` models `s.slice(0, n)` and `strDrop1Slash` models
`s.replace(/^\//, "")`; both are over the character list of the string
(all strings involved are ASCII). -/

def sliceTo (s : String) (n : Nat) : String := ⟨s.data.take n⟩

/-- Strip `p` from the front of `s`; `some rest` on success.  Used to model
both `String.prototype.startsWith` and anchored regex prefixes. -/
def stripPre : List Char → List Char → Option (List Char)
  | [], s => some s
  | _ :: _, [] => none
  | p :: ps, c :: cs => if p = c then stripPre ps cs else none

def strDrop1Slash (s : String) : String :=
  match s.data with
  | '/' :: rest => ⟨rest⟩
  | _ => s

/-- Lexicographic order on character lists: the byte order SQLite's BINARY
collation and JS `<` use on the ASCII keys involved here. -/
def charListLtB : List Char → List Char → Bool
  | _, [] => false
  | [], _ :: _ => true
  | a :: as, b :: bs => if a < b then true else if b < a then false else charListLtB as bs

/-- SQL `a < b` on TEXT keys. -/
def strLtB (a b : String) : Bool := charListLtB a.data b.data

/-- SQL `a >= b` is `¬ a < b`; `strLeB a b` is SQL `b >= a`. -/
def strLeB (a b : String) : Bool := !strLtB b a

/-! ### Epoch-milliseconds to ISO-8601 UTC string

Models `new Date(ms).toISOString()` for `ms ≥ 0` (format
`YYYY-MM-DDTHH:mm:ss.sssZ`), via the standard civil-from-days conversion. -/

def pad2 (n : Nat) : String := if n < 10 then "0" ++ toString n else toString n

def pad3 (n : Nat) : String :=
  if n < 10 then "00" ++ toString n else if n < 100 then "0" ++ toString n else toString n

def pad4 (n : Nat) : String :=
  if n < 10 then "000" ++ toString n
  else if n < 100 then "00" ++ toString n
  else if n < 1000 then "0" ++ toString n
  else toString n

/-- Gregorian (year, month, day) of the day that is `z` days after 1970-01-01. -/
def civilFromDays (z0 : Nat) : Nat × Nat × Nat :=
  let z := z0 + 719468
  let era := z / 146097
  let doe := z % 146097
  let yoe := (doe - doe / 1460 + doe / 36524 - doe / 146096) / 365
  let y := yoe + era * 400
  let doy := doe - (365 * yoe + yoe / 4 - yoe / 100)
  let mp := (5 * doy + 2) / 153
  let d := doy - (153 * mp + 2) / 5 + 1
  let m := if mp < 10 then mp + 3 else mp - 9
  (if m ≤ 2 then y + 1 else y, m, d)

def isoOfMillis (ms : Nat) : String :=
  let s := ms / 1000
  let days := s / 86400
  let secOfDay := s % 86400
  let ymd := civilFromDays days
  pad4 ymd.1 ++ "-" ++ pad2 ymd.2.1 ++ "-" ++ pad2 ymd.2.2 ++ "T" ++
    pad2 (secOfDay / 3600) ++ ":" ++ pad2 (secOfDay % 3600 / 60) ++ ":" ++
    pad2 (secOfDay % 60) ++ "." ++ pad3 (ms % 1000) ++ "Z"

/-! ### Data model (`src/database.ts`) -/

/-- `UsageEvent` from `src/database.ts`: every field but `ts` optional. -/
structure UsageEvent where
  ts : String
  gatewayId : Option String := none
  channel : Option String := none
  provider : Option String := none
  model : Option String := none
  sessionKey : Option String := none
  sessionId : Option String := none
  inputTokens : Option Int := none
  outputTokens : Option Int := none
  cacheReadTokens : Option Int := none
  cacheWriteTokens : Option Int := none
  promptTokens : Option Int := none
  totalTokens : Option Int := none
  costUsd : Option Rat := none
  durationMs : Option Int := none
  contextLimit : Option Int := none
  contextUsed : Option Int := none
  deriving DecidableEq, Repr

/-- One row of the `usage_events` table.  `NULL`able columns are `Option`;
`recordUsage` stores the *defaulted* gateway id but the raw (possibly
`NULL`) model and token columns. -/
structure RawRow where
  ts : String
  gateway_id : String
  channel : Option String
  provider : Option String
  model : Option String
  session_key : Option String
  session_id : Option String
  input_tokens : Option Int
  output_tokens : Option Int
  cache_read_tokens : Option Int
  cache_write_tokens : Option Int
  prompt_tokens : Option Int
  total_tokens : Option Int
  cost_usd : Option Rat
  duration_ms : Option Int
  context_limit : Option Int
  context_used : Option Int
  deriving DecidableEq, Repr

/-- One row of `hourly_stats` / `daily_stats` (same shape; `bucket` is the
`hour` resp. `day` column, the primary key is `(bucket, gateway_id, model)`). -/
structure StatRow where
  bucket : String
  gateway_id : String
  model : String
  event_count : Int
  input_tokens : Int
  output_tokens : Int
  total_tokens : Int
  cost_usd : Rat
  deriving DecidableEq, Repr

def statKey (r : StatRow) : String × String × String := (r.bucket, r.gateway_id, r.model)

/-- The three tables of the metrics database. -/
structure MetricsDB where
  usage_events : List RawRow
  hourly_stats : List StatRow
  daily_stats : List StatRow
  deriving DecidableEq, Repr

def emptyDB : MetricsDB := ⟨[], [], []⟩

/-- `toHour` from `src/database.ts`: `iso.slice(0, 13) + ":00:00Z"`. -/
def toHour (iso : String) : String := sliceTo iso 13 ++ ":00:00Z"

/-- `toDay` from `src/database.ts`: `iso.slice(0, 10)`. -/
def toDay (iso : String) : String := sliceTo iso 10

/-- The `ON CONFLICT ... DO UPDATE` accumulation: add the attempted insert's
accumulators onto the existing row (the attempted insert carries
`event_count = 1`, so `event_count` gains 1). -/
def bumpRow (r e : StatRow) : StatRow :=
  { r with
    event_count := r.event_count + e.event_count,
    input_tokens := r.input_tokens + e.input_tokens,
    output_tokens := r.output_tokens + e.output_tokens,
    total_tokens := r.total_tokens + e.total_tokens,
    cost_usd := r.cost_usd + e.cost_usd }

/-- `INSERT ... ON CONFLICT(key) DO UPDATE` against a keyed table: update the
(unique) row with `e`'s key if present, else append `e`. -/
def upsertStat : List StatRow → StatRow → List StatRow
  | [], e => [e]
  | r :: rs, e => if statKey r = statKey e then bumpRow r e :: rs else r :: upsertStat rs e

/-- The raw `usage_events` row inserted for `event` (from `recordUsage`:
`insertRaw.run(event.ts, gatewayId, event.channel ?? null, ...)` — the
gateway id is the `?? ""`-defaulted local, everything else is raw). -/
def rawOf (e : UsageEvent) : RawRow :=
  { ts := e.ts
    gateway_id := e.gatewayId.getD ""
    channel := e.channel
    provider := e.provider
    model := e.model
    session_key := e.sessionKey
    session_id := e.sessionId
    input_tokens := e.inputTokens
    output_tokens := e.outputTokens
    cache_read_tokens := e.cacheReadTokens
    cache_write_tokens := e.cacheWriteTokens
    prompt_tokens := e.promptTokens
    total_tokens := e.totalTokens
    cost_usd := e.costUsd
    duration_ms := e.durationMs
    context_limit := e.contextLimit
    context_used := e.contextUsed }

/-- The hourly-rollup row `recordUsage` attempts to insert for `event`:
`VALUES (hour, gatewayId, model, 1, inputTokens, outputTokens, totalTokens, costUsd)`
with the `?? 0` / `?? ""` defaults applied. -/
def hourlyRowOf (e : UsageEvent) : StatRow :=
  { bucket := toHour e.ts
    gateway_id := e.gatewayId.getD ""
    model := e.model.getD ""
    event_count := 1
    input_tokens := e.inputTokens.getD 0
    output_tokens := e.outputTokens.getD 0
    total_tokens := e.totalTokens.getD 0
    cost_usd := e.costUsd.getD 0 }

/-- Same for the daily rollup (`day` bucket instead of `hour`). -/
def dailyRowOf (e : UsageEvent) : StatRow :=
  { hourlyRowOf e with bucket := toDay e.ts }

/-- First write of `recordUsage`'s transaction: `insertRaw.run(...)`. -/
def insertRawStep (db : MetricsDB) (e : UsageEvent) : MetricsDB :=
  { db with usage_events := db.usage_events ++ [rawOf e] }

/-- Second write: `upsertHourly.run(hour, gatewayId, model, ...)`. -/
def upsertHourlyStep (db : MetricsDB) (e : UsageEvent) : MetricsDB :=
  { db with hourly_stats := upsertStat db.hourly_stats (hourlyRowOf e) }

/-- Third write: `upsertDaily.run(day, gatewayId, model, ...)`. -/
def upsertDailyStep (db : MetricsDB) (e : UsageEvent) : MetricsDB :=
  { db with daily_stats := upsertStat db.daily_stats (dailyRowOf e) }

/-- `MetricsDatabase.recordUsage` with all three writes succeeding: the body
of the `db.transaction(() => { ... })()` call. -/
def recordUsage (db : MetricsDB) (e : UsageEvent) : MetricsDB :=
  upsertDailyStep (upsertHourlyStep (insertRawStep db e) e) e

/-- Per-call failure pattern for the three statements of `recordUsage`'s
transaction (a `better-sqlite3` statement either applies or throws). -/
structure WriteFailures where
  failRaw : Bool
  failHourly : Bool
  failDaily : Bool
  deriving DecidableEq, Repr

/-- The three statements run in order inside the transaction; the first
failure aborts (throws out of) the transaction function. -/
def runTxSteps (db : MetricsDB) (e : UsageEvent) (w : WriteFailures) :
    Except Unit MetricsDB :=
  if w.failRaw then .error () else
  let db1 := insertRawStep db e
  if w.failHourly then .error () else
  let db2 := upsertHourlyStep db1 e
  if w.failDaily then .error () else
  .ok (upsertDailyStep db2 e)

/-- `MetricsDatabase.recordUsage` under the transaction semantics of
`better-sqlite3`: `db.transaction(fn)()` commits `fn`'s writes if `fn`
returns, and rolls every write back (restoring the pre-call state) if `fn`
throws, re-raising the exception.  Returns the resulting store and whether
the call succeeded. -/
def recordUsageTx (db : MetricsDB) (e : UsageEvent) (w : WriteFailures) :
    MetricsDB × Bool :=
  match runTxSteps db e w with
  | .ok db2 => (db2, true)
  | .error _ => (db, false)

/-! ### Queries (`src/database.ts`)

`Date.now()` is passed in explicitly as `now` (milliseconds since epoch).
SQL `ORDER BY` is modelled by insertion sort over the comparison used by
SQLite's BINARY collation on these ASCII keys (lexicographic). -/

/-- Insertion step of `sortBy`: place `x` before the first element `y`
with `le x y`. -/
def insSorted (le : α → α → Bool) (x : α) : List α → List α
  | [] => [x]
  | y :: ys => if le x y then x :: y :: ys else y :: insSorted le x ys

/-- Insertion sort by the boolean relation `le`. -/
def sortBy (le : α → α → Bool) : List α → List α
  | [] => []
  | x :: xs => insSorted le x (sortBy le xs)

/-- The cutoff string of `getHourlyStats`:
`new Date(Date.now() - hours*3600_000).toISOString().slice(0, 13) + ":00:00Z"`. -/
def hourlyCutoffStr (now hours : Nat) : String :=
  sliceTo (isoOfMillis (now - hours * 3600000)) 13 ++ ":00:00Z"

/-- Day cutoff used by `getDailyStats`/`getModelDistribution`:
`new Date(Date.now() - days*86400_000).toISOString().slice(0, 10)`. -/
def dailyCutoffStr (now days : Nat) : String :=
  sliceTo (isoOfMillis (now - days * 86400000)) 10

/-- `MetricsDatabase.getHourlyStats(hours)`:
`SELECT ... FROM hourly_stats WHERE hour >= cutoff ORDER BY hour ASC`. -/
def getHourlyStats (db : MetricsDB) (now hours : Nat) : List StatRow :=
  sortBy (fun a b => strLeB a.bucket b.bucket)
    (db.hourly_stats.filter (fun r => strLeB (hourlyCutoffStr now hours) r.bucket))

/-- `MetricsDatabase.getDailyStats(days)`:
`SELECT ... FROM daily_stats WHERE day >= cutoff ORDER BY day ASC`. -/
def getDailyStats (db : MetricsDB) (now days : Nat) : List StatRow :=
  sortBy (fun a b => strLeB a.bucket b.bucket)
    (db.daily_stats.filter (fun r => strLeB (dailyCutoffStr now days) r.bucket))

/-- `(l.map f).sum`, the `SUM(...)` aggregate over a list of rows. -/
def sumBy (l : List α) (f : α → Int) : Int := (l.map f).sum

/-- `SUM(cost_usd)` needs `Rat`. -/
def sumByQ (l : List α) (f : α → Rat) : Rat := (l.map f).sum

/-- One result row of `getModelDistribution`. -/
structure ModelDistRow where
  model : String
  event_count : Int
  total_tokens : Int
  cost_usd : Rat
  deriving DecidableEq, Repr

/-- The daily rows `getModelDistribution` aggregates:
`WHERE day >= cutoff AND model != ''`. -/
def modelDistWindow (db : MetricsDB) (now days : Nat) : List StatRow :=
  db.daily_stats.filter (fun r => strLeB (dailyCutoffStr now days) r.bucket && decide (r.model ≠ ""))

/-- The `GROUP BY model` aggregate row for one model. -/
def modelGroupRow (rows : List StatRow) (m : String) : ModelDistRow :=
  let rs := rows.filter (fun r => decide (r.model = m))
  { model := m
    event_count := sumBy rs (·.event_count)
    total_tokens := sumBy rs (·.total_tokens)
    cost_usd := sumByQ rs (·.cost_usd) }

/-- `MetricsDatabase.getModelDistribution(days)`:
`SELECT model, SUM(event_count), SUM(total_tokens), SUM(cost_usd)
 FROM daily_stats WHERE day >= cutoff AND model != ''
 GROUP BY model ORDER BY total_tokens DESC`.
(SQL leaves the relative order of equal `total_tokens` groups open; the
sort below is one refinement of `ORDER BY total_tokens DESC`.) -/
def getModelDistribution (db : MetricsDB) (now days : Nat) : List ModelDistRow :=
  let rows := modelDistWindow db now days
  sortBy (fun a b => decide (b.total_tokens ≤ a.total_tokens))
    ((rows.map (·.model)).dedup.map (modelGroupRow rows))

/-! ### Retention cleanup (`src/database.ts`) -/

structure RetentionConfig where
  rawDays : Nat
  hourlyDays : Nat
  dailyDays : Nat
  deriving DecidableEq, Repr

/-- `MetricsDatabase.cleanupOldData(retention)`: one transaction running
`DELETE FROM usage_events WHERE ts < rawCutoff`,
`DELETE FROM hourly_stats WHERE hour < hourlyCutoff`,
`DELETE FROM daily_stats WHERE day < dailyCutoff`
(then `VACUUM`, which does not change table contents). -/
def cleanupOldData (db : MetricsDB) (now : Nat) (ret : RetentionConfig) : MetricsDB :=
  let rawCutoff := isoOfMillis (now - ret.rawDays * 86400000)
  let hourlyCutoff := hourlyCutoffStr now (ret.hourlyDays * 24)
  let dailyCutoff := dailyCutoffStr now ret.dailyDays
  { usage_events := db.usage_events.filter (fun r => !strLtB r.ts rawCutoff)
    hourly_stats := db.hourly_stats.filter (fun r => !strLtB r.bucket hourlyCutoff)
    daily_stats := db.daily_stats.filter (fun r => !strLtB r.bucket dailyCutoff) }

/-! ### Ingestion buffer (`src/metrics-collector.ts`)

The collector's mutable fields (`buffer` plus the database handle) form the
state; `Date.now().toISOString()` at record time is passed in as `now`.
Store-level failures are injected through an oracle `fail : Nat → Bool`
telling which positions of a flushed batch make `recordUsage` throw. -/

structure DiagnosticUsage where
  input : Option Int := none
  output : Option Int := none
  cacheRead : Option Int := none
  cacheWrite : Option Int := none
  promptTokens : Option Int := none
  total : Option Int := none
  deriving DecidableEq, Repr

structure DiagnosticContext where
  limit : Option Int := none
  used : Option Int := none
  deriving DecidableEq, Repr

structure DiagnosticEvent where
  type : String
  channel : Option String := none
  provider : Option String := none
  model : Option String := none
  sessionKey : Option String := none
  sessionId : Option String := none
  usage : Option DiagnosticUsage := none
  costUsd : Option Rat := none
  durationMs : Option Int := none
  context : Option DiagnosticContext := none
  deriving DecidableEq, Repr

/-- `MetricsCollector` state: configuration plus the in-memory buffer and
the backing store. -/
structure Collector where
  gatewayId : String
  bufferMs : Nat
  bufferSize : Nat
  buffer : List UsageEvent
  db : MetricsDB
  deriving DecidableEq, Repr

/-- The `UsageEvent` entry built inside `MetricsCollector.record` (`?.`
chains become `Option.bind`; `ts` is the wall clock at record time). -/
def mkEntry (gatewayId ts : String) (e : DiagnosticEvent) : UsageEvent :=
  { ts := ts
    gatewayId := some gatewayId
    channel := e.channel
    provider := e.provider
    model := e.model
    sessionKey := e.sessionKey
    sessionId := e.sessionId
    inputTokens := e.usage.bind (·.input)
    outputTokens := e.usage.bind (·.output)
    cacheReadTokens := e.usage.bind (·.cacheRead)
    cacheWriteTokens := e.usage.bind (·.cacheWrite)
    promptTokens := e.usage.bind (·.promptTokens)
    totalTokens := e.usage.bind (·.total)
    costUsd := e.costUsd
    durationMs := e.durationMs
    contextLimit := e.context.bind (·.limit)
    contextUsed := e.context.bind (·.used) }

/-- The batch loop of `flushSync`: for each event, `try { recordUsage }
catch { /* Don't let DB errors crash the gateway */ }` — a failing write
(`fail i` true at that batch position) leaves the store untouched and the
loop continues with the next event. -/
def flushBatchFrom (fail : Nat → Bool) : MetricsDB → Nat → List UsageEvent → MetricsDB
  | db, _, [] => db
  | db, i, e :: es =>
      flushBatchFrom fail (if fail i then db else recordUsage db e) (i + 1) es

/-- `MetricsCollector.flushSync`: return if the buffer is empty, else
`splice(0)` (snapshot and clear) and write the batch one event at a time. -/
def flushSync (c : Collector) (fail : Nat → Bool) : Collector :=
  if c.buffer.isEmpty then c
  else { c with buffer := [], db := flushBatchFrom fail c.db 0 c.buffer }

/-- `MetricsCollector.record`: drop anything that is not a `"model.usage"`
event, else append the mapped entry and flush inline once the buffer has
reached `bufferSize`. -/
def record (c : Collector) (now : String) (ev : DiagnosticEvent) (fail : Nat → Bool) :
    Collector :=
  if ev.type ≠ "model.usage" then c
  else
    let c2 := { c with buffer := c.buffer ++ [mkEntry c.gatewayId now ev] }
    if c.bufferSize ≤ c2.buffer.length then flushSync c2 fail else c2

/-- Fold `recordUsage` over a list (a batch in which every write succeeds). -/
def recordAll (db : MetricsDB) (l : List UsageEvent) : MetricsDB :=
  l.foldl recordUsage db

/-- Oracle that fails exactly the write at batch position `n`. -/
def failOnly (n : Nat) : Nat → Bool := fun i => i == n

/-- Oracle under which every write succeeds. -/
def noFail : Nat → Bool := fun _ => false

/-! ### Dashboard server (`src/dashboard-server.ts`)

The HTTP layer is modelled as a pure function from a request (method,
`Origin` header, URL pathname, query parameters) to a response (status,
headers, body).  Response bodies carry the structured data that the code
passes to `JSON.stringify`, serialization itself being elided.  The static
file tree is a list of `(absolute path, content)` pairs. -/

/-- `^https?:\/\/(localhost|127\.0\.0\.1)(:\d+)?$` — the optional-port tail. -/
def checkPortChars : List Char → Bool
  | [] => true
  | c :: ds => c == ':' && !ds.isEmpty && ds.all Char.isDigit

/-- Host-and-port part of the CORS regex: `(localhost|127.0.0.1)(:\d+)?$` —
try the `localhost` alternative, else `127.0.0.1`, then the optional port. -/
def hostPortOk (cs : List Char) : Bool :=
  (stripPre "localhost".data cs).elim
    ((stripPre "127.0.0.1".data cs).elim false checkPortChars)
    checkPortChars

/-- The CORS test `/^https?:\/\/(localhost|127\.0\.0\.1)(:\d+)?$/.test(origin)`:
try the `http://` scheme prefix, else `https://`, then the host and port. -/
def corsOriginAllowed (o : String) : Bool :=
  (stripPre "http://".data o.data).elim
    ((stripPre "https://".data o.data).elim false hostPortOk)
    hostPortOk

/-- Split a character list at `/` separators. -/
def splitSlashAux : List Char → List Char → List (List Char)
  | acc, [] => [acc.reverse]
  | acc, c :: cs =>
      if c = '/' then acc.reverse :: splitSlashAux [] cs
      else splitSlashAux (c :: acc) cs

/-- Segments of a POSIX path, empty and `.` segments dropped. -/
def segsOf (s : String) : List String :=
  ((splitSlashAux [] s.data).map (fun l => (⟨l⟩ : String))).filter
    (fun x => !(x == "" || x == "."))

/-- Resolve `..` segments of an absolute path (clamping at the root),
as node's path normalization does. -/
def normAbs (segs : List String) : List String :=
  (segs.foldl (fun acc s => if s = ".." then acc.tail else s :: acc) []).reverse

/-- Join segments with `/` separators. -/
def joinSegs : List String → String
  | [] => ""
  | [x] => x
  | x :: y :: xs => x ++ "/" ++ joinSegs (y :: xs)

/-- node `path.join(a, b)` for an absolute `a`: concatenate and normalize. -/
def posixJoin (a b : String) : String :=
  "/" ++ joinSegs (normAbs (segsOf a ++ segsOf b))

structure FileSys where
  files : List (String × String)
  deriving DecidableEq, Repr

def fsExists (fs : FileSys) (p : String) : Bool := fs.files.any (fun f => f.1 = p)

def fsRead (fs : FileSys) (p : String) : Option String :=
  (fs.files.find? (fun f => f.1 = p)).map (·.2)

/-- `{id, totalTokens, totalCost}` entries of `topGateways` / `topModels`. -/
structure TopEntry where
  id : String
  totalTokens : Int
  totalCost : Rat
  deriving DecidableEq, Repr

/-- The `/api/overview` payload. -/
structure Overview where
  totalTokens : Int
  totalCost : Rat
  totalEvents : Int
  inputTokens : Int
  outputTokens : Int
  topGateways : List TopEntry
  topModels : List TopEntry
  deriving DecidableEq, Repr

structure TimePoint where
  timestamp : String
  tokens : Int
  cost : Rat
  deriving DecidableEq, Repr

structure GatewayRow where
  id : String
  totalTokens24h : Int
  totalCost24h : Rat
  topModel : Option String
  deriving DecidableEq, Repr

structure GatewayStats where
  totalTokens : Int
  totalCost : Rat
  totalEvents : Int
  deriving DecidableEq, Repr

structure HourlyPoint where
  timestamp : String
  tokens : Int
  cost : Rat
  events : Int
  model : String
  deriving DecidableEq, Repr

structure GatewayDetail where
  id : String
  stats : GatewayStats
  hourly : List HourlyPoint
  sessions : List Unit
  deriving DecidableEq, Repr

structure ModelInfo where
  id : String
  provider : String
  totalTokens : Int
  totalCost : Rat
  avgCostPer1K : Rat
  deriving DecidableEq, Repr

/-- A JS `Map<string, {tokens, cost}>` as an insertion-ordered association
list; `set` on an existing key updates in place, a new key is appended. -/
def bumpMap (m : List (String × Int × Rat)) (k : String) (tok : Int) (cost : Rat) :
    List (String × Int × Rat) :=
  if m.any (fun p => p.1 = k) then
    m.map (fun p => if p.1 = k then (p.1, p.2.1 + tok, p.2.2 + cost) else p)
  else m ++ [(k, tok, cost)]

/-- Accumulator of `buildOverview`'s row loop. -/
structure OvAcc where
  totalTokens : Int := 0
  totalCost : Rat := 0
  totalEvents : Int := 0
  inputTokens : Int := 0
  outputTokens : Int := 0
  gwMap : List (String × Int × Rat) := []
  modelMap : List (String × Int × Rat) := []

/-- One iteration of `buildOverview`'s `for (const row of rows)` loop.
Rollup columns are never `NULL`, so `(x as number) || 0` is `x`; the
`if (gw)` / `if (m)` guards skip empty-string keys. -/
def ovStep (acc : OvAcc) (row : StatRow) : OvAcc :=
  { totalTokens := acc.totalTokens + row.total_tokens
    totalCost := acc.totalCost + row.cost_usd
    totalEvents := acc.totalEvents + row.event_count
    inputTokens := acc.inputTokens + row.input_tokens
    outputTokens := acc.outputTokens + row.output_tokens
    gwMap :=
      if row.gateway_id ≠ "" then bumpMap acc.gwMap row.gateway_id row.total_tokens row.cost_usd
      else acc.gwMap
    modelMap :=
      if row.model ≠ "" then bumpMap acc.modelMap row.model row.total_tokens row.cost_usd
      else acc.modelMap }

/-- `.map(([id, s]) => ({id, ...})).sort((a, b) => b.totalTokens - a.totalTokens).slice(0, 10)`. -/
def topOf (m : List (String × Int × Rat)) : List TopEntry :=
  (sortBy (fun a b => decide (b.totalTokens ≤ a.totalTokens))
    (m.map (fun p => ⟨p.1, p.2.1, p.2.2⟩))).take 10

/-- The body of `DashboardServer.buildOverview` applied to the rows it reads
from `getHourlyStats`. -/
def buildOverviewRows (rows : List StatRow) : Overview :=
  let acc := rows.foldl ovStep {}
  { totalTokens := acc.totalTokens
    totalCost := acc.totalCost
    totalEvents := acc.totalEvents
    inputTokens := acc.inputTokens
    outputTokens := acc.outputTokens
    topGateways := topOf acc.gwMap
    topModels := topOf acc.modelMap }

/-- `DashboardServer.buildOverview(hours)`. -/
def buildOverview (db : MetricsDB) (now hours : Nat) : Overview :=
  buildOverviewRows (getHourlyStats db now hours)

/-- `gateway && row.gateway_id !== gateway` guard: filter only when the
parameter is present and (as a JS string) truthy, i.e. nonempty. -/
def optFilterMatch (filt : Option String) (v : String) : Bool :=
  match filt with
  | none => true
  | some f => if f = "" then true else v == f

/-- `DashboardServer.buildTimeseries(hours, gateway?, model?)`. -/
def buildTimeseries (db : MetricsDB) (now hours : Nat)
    (gateway? model? : Option String) : List TimePoint :=
  let rows := (getHourlyStats db now hours).filter
    (fun r => optFilterMatch gateway? r.gateway_id && optFilterMatch model? r.model)
  let tsMap := rows.foldl (fun m r => bumpMap m r.bucket r.total_tokens r.cost_usd) []
  (sortBy (fun a b => strLeB a.1 b.1) tsMap).map
    (fun p => { timestamp := p.1, tokens := p.2.1, cost := p.2.2 })

/-- Inner per-gateway accumulator of `buildGateways`. -/
def bumpModelCount (m : List (String × Int)) (k : String) (tok : Int) : List (String × Int) :=
  if m.any (fun p => p.1 = k) then
    m.map (fun p => if p.1 = k then (p.1, p.2 + tok) else p)
  else m ++ [(k, tok)]

def gwStep (m : List (String × Int × Rat × List (String × Int))) (r : StatRow) :
    List (String × Int × Rat × List (String × Int)) :=
  if r.gateway_id = "" then m
  else if m.any (fun p => p.1 = r.gateway_id) then
    m.map (fun p =>
      if p.1 = r.gateway_id then
        (p.1, p.2.1 + r.total_tokens, p.2.2.1 + r.cost_usd,
          if r.model ≠ "" then bumpModelCount p.2.2.2 r.model r.total_tokens else p.2.2.2)
      else p)
  else
    m ++ [(r.gateway_id, r.total_tokens, r.cost_usd,
      if r.model ≠ "" then bumpModelCount [] r.model r.total_tokens else [])]

/-- `DashboardServer.buildGateways()` (fixed 24-hour window). -/
def buildGateways (db : MetricsDB) (now : Nat) : List GatewayRow :=
  let m := (getHourlyStats db now 24).foldl gwStep []
  sortBy (fun a b => decide (b.totalTokens24h ≤ a.totalTokens24h))
    (m.map (fun p =>
      { id := p.1
        totalTokens24h := p.2.1
        totalCost24h := p.2.2.1
        topModel := ((sortBy (fun a b => decide (b.2 ≤ a.2)) p.2.2.2).head?).map (·.1) }))

/-- `DashboardServer.buildGateway(id, hours)`. -/
def buildGateway (db : MetricsDB) (now hours : Nat) (id : String) : GatewayDetail :=
  let hourly := (getHourlyStats db now hours).filter (fun r => r.gateway_id == id)
  { id := id
    stats :=
      { totalTokens := sumBy hourly (·.total_tokens)
        totalCost := sumByQ hourly (·.cost_usd)
        totalEvents := sumBy hourly (·.event_count) }
    hourly := hourly.map (fun r =>
      { timestamp := r.bucket, tokens := r.total_tokens, cost := r.cost_usd,
        events := r.event_count, model := r.model })
    sessions := [] }

/-- Substring membership, `String.prototype.includes`. -/
def listContainsSub (sub : List Char) : List Char → Bool
  | [] => (stripPre sub []).isSome
  | c :: cs => (stripPre sub (c :: cs)).isSome || listContainsSub sub cs

def containsSub (s sub : String) : Bool := listContainsSub sub.data s.data

/-- `inferProvider` from `src/dashboard-server.ts`. -/
def inferProvider (model : String) : String :=
  if model = "" then "unknown"
  else if containsSub model "claude" then "anthropic"
  else if containsSub model "gpt" || containsSub model "o1" || containsSub model "o3" then "openai"
  else if containsSub model "kimi" || containsSub model "moonshot" then "moonshot"
  else if containsSub model "glm" then "zhipu"
  else if containsSub model "minimax" then "minimax"
  else "unknown"

/-- `DashboardServer.buildModels(days)`. -/
def buildModels (db : MetricsDB) (now days : Nat) : List ModelInfo :=
  (getModelDistribution db now days).map (fun r =>
    { id := r.model
      provider := inferProvider r.model
      totalTokens := r.total_tokens
      totalCost := r.cost_usd
      avgCostPer1K := if (0 : Int) < r.total_tokens then r.cost_usd / (r.total_tokens : Rat) * 1000 else 0 })

/-- `parseInt(s, 10)`: leading whitespace, optional sign, longest digit
prefix; `none` models `NaN`. -/
def parseIntJS (s : String) : Option Int :=
  let cs := s.data.dropWhile (fun c => c = ' ' || c = '\t' || c = '\n' || c = '\r')
  let signAndRest : Bool × List Char :=
    match cs with
    | '-' :: rest => (true, rest)
    | '+' :: rest => (false, rest)
    | _ => (false, cs)
  let digits := signAndRest.2.takeWhile Char.isDigit
  if digits.isEmpty then none
  else
    let n : Nat := digits.foldl (fun acc c => acc * 10 + (c.toNat - '0'.toNat)) 0
    some (if signAndRest.1 then -(n : Int) else (n : Int))

/-- `clampInt` from `src/dashboard-server.ts`: `NaN` falls back to the
default *unclamped*; a parsed value is clamped into `[mn, mx]`. -/
def clampInt (value : Option String) (dflt mn mx : Int) : Int :=
  let n? := match value with
    | none => some dflt
    | some s => parseIntJS s
  match n? with
  | none => dflt
  | some n => max mn (min mx n)

/-- Response bodies: the data handed to `res.end`, with JSON serialization
elided (`empty` is `res.end()` with no payload). -/
inductive RBody
  | empty
  | text (s : String)
  | file (content : String)
  | overview (o : Overview)
  | timeseries (l : List TimePoint)
  | gateways (l : List GatewayRow)
  | gatewayDetail (g : GatewayDetail)
  | models (l : List ModelInfo)
  | jsonError (msg : String)
  deriving DecidableEq, Repr

structure Response where
  status : Nat
  headers : List (String × String)
  body : RBody
  deriving DecidableEq, Repr

structure Request where
  method : String
  origin : Option String
  path : String
  query : List (String × String)
  deriving DecidableEq, Repr

def lookupQ (q : List (String × String)) (k : String) : Option String :=
  (q.find? (fun p => p.1 = k)).map (·.2)

/-- `/^\/api\/gateway\/[^/]+$/.test(path)`. -/
def isGatewayIdPath (path : String) : Bool :=
  match stripPre "/api/gateway/".data path.data with
  | some rest => !rest.isEmpty && rest.all (fun c => c ≠ '/')
  | none => false

/-- `DashboardServer.handleApi` (the `try` body never throws in this pure
model, so the `catch → 500` branch is unreachable; percent-decoding of the
gateway id is elided). -/
def handleApi (db : MetricsDB) (now : Nat) (path : String)
    (query : List (String × String)) : Response :=
  let jh := [("Content-Type", "application/json")]
  if path = "/api/overview" then
    let hours := (clampInt (lookupQ query "hours") 24 1 720).toNat
    ⟨200, jh, .overview (buildOverview db now hours)⟩
  else if path = "/api/timeseries" then
    let hours := (clampInt (lookupQ query "hours") 24 1 720).toNat
    ⟨200, jh, .timeseries (buildTimeseries db now hours (lookupQ query "gateway") (lookupQ query "model"))⟩
  else if path = "/api/gateways" then
    ⟨200, jh, .gateways (buildGateways db now)⟩
  else if isGatewayIdPath path then
    let id : String := ⟨path.data.drop 13⟩
    let hours := (clampInt (lookupQ query "hours") 24 1 720).toNat
    ⟨200, jh, .gatewayDetail (buildGateway db now hours id)⟩
  else if path = "/api/models" then
    let days := (clampInt (lookupQ query "days") 7 1 365).toNat
    ⟨200, jh, .models (buildModels db now days)⟩
  else ⟨404, jh, .jsonError "Not found"⟩

/-- `ext = filePath.slice(filePath.lastIndexOf("."))`: the suffix from the
last `.`; with no `.`, `lastIndexOf` is `-1` and `slice(-1)` is the last
character. -/
def extOf (p : String) : String :=
  let rev := p.data.reverse
  let afterDot := rev.takeWhile (fun c => c ≠ '.')
  if afterDot.length = rev.length then ⟨(rev.take 1).reverse⟩
  else ⟨'.' :: afterDot.reverse⟩

def mimeLookup (ext : String) : String :=
  if ext = ".html" then "text/html; charset=utf-8"
  else if ext = ".css" then "text/css; charset=utf-8"
  else if ext = ".js" then "application/javascript; charset=utf-8"
  else if ext = ".json" then "application/json; charset=utf-8"
  else if ext = ".ico" then "image/x-icon"
  else "application/octet-stream"

/-- `DashboardServer.serveStatic(urlPath)`. -/
def serveStatic (dashboardDir : String) (fs : FileSys) (urlPath : String) : Response :=
  let fp0 := if urlPath = "/" then "index.html" else strDrop1Slash urlPath
  let filePath := posixJoin dashboardDir fp0
  if !(stripPre dashboardDir.data filePath.data).isSome then
    ⟨403, [], .text "Forbidden"⟩
  else
    let indexPath := posixJoin dashboardDir "index.html"
    let chosen : Option String :=
      if fsExists fs filePath then some filePath
      else if fsExists fs indexPath then some indexPath
      else none
    match chosen with
    | none => ⟨404, [], .text "Not found"⟩
    | some p =>
      match fsRead fs p with
      | some content => ⟨200, [("Content-Type", mimeLookup (extOf p))], .file content⟩
      | none => ⟨500, [], .text "Read error"⟩

def corsHeadersFor (origin : String) : List (String × String) :=
  [("Access-Control-Allow-Origin", origin),
   ("Access-Control-Allow-Methods", "GET, OPTIONS"),
   ("Access-Control-Allow-Headers", "Content-Type")]

/-- Headers set with `res.setHeader` before the handler runs are part of
the final response. -/
def withHeaders (hs : List (String × String)) (r : Response) : Response :=
  { r with headers := hs ++ r.headers }

/-- The request handler installed by `DashboardServer.start`:
CORS gate, preflight short-circuit, then `/api/` vs. static routing. -/
def handleRequest (dashboardDir : String) (fs : FileSys) (db : MetricsDB)
    (now : Nat) (req : Request) : Response :=
  let origin := (req.origin).getD ""
  if origin ≠ "" ∧ corsOriginAllowed origin = false then
    ⟨403, [], .text "Forbidden"⟩
  else
    let ch := if origin ≠ "" then corsHeadersFor origin else []
    if req.method = "OPTIONS" then ⟨204, ch, .empty⟩
    else if (stripPre "/api/".data req.path.data).isSome then
      withHeaders ch (handleApi db now req.path req.query)
    else
      withHeaders ch (serveStatic dashboardDir fs req.path)

/-! ### Derived notions used by the statements -/

/-- The hourly rollup key a raw event row maps to: its hour bucket, its
(already defaulted) gateway id, and its model defaulted to `""`. -/
def rawHourKey (r : RawRow) : String × String × String :=
  (toHour r.ts, r.gateway_id, r.model.getD "")

/-- `SUM(total_tokens)` over the hourly rows with key `k`. -/
def statTotal (rows : List StatRow) (k : String × String × String) : Int :=
  sumBy (rows.filter (fun r => decide (statKey r = k))) (·.total_tokens)

/-- `SUM(event_count)` over the hourly rows with key `k`. -/
def statCount (rows : List StatRow) (k : String × String × String) : Int :=
  sumBy (rows.filter (fun r => decide (statKey r = k))) (·.event_count)

/-- Sum of `totalTokens` (defaulted to 0) over raw events mapping to `k`. -/
def rawHourTotal (raws : List RawRow) (k : String × String × String) : Int :=
  sumBy (raws.filter (fun r => decide (rawHourKey r = k))) (fun r => r.total_tokens.getD 0)

/-- Number of raw events mapping to `k`. -/
def rawHourCount (raws : List RawRow) (k : String × String × String) : Int :=
  ((raws.filter (fun r => decide (rawHourKey r = k))).length : Int)

/-- Invariant tying the hourly rollup table to the raw event table. -/
def hourlyInv (db : MetricsDB) : Prop :=
  (db.hourly_stats.map statKey).Nodup ∧
  ∀ k : String × String × String,
    statTotal db.hourly_stats k = rawHourTotal db.usage_events k ∧
    statCount db.hourly_stats k = rawHourCount db.usage_events k

/-- Two usage events with the same `(hour, gateway, model)` key and token
totals 100 and 200, for the upsert example. -/
def sampleEvent100 : UsageEvent :=
  { ts := "2026-02-22T14:05:00.000Z", gatewayId := some "gw1",
    model := some "opus", totalTokens := some 100 }

def sampleEvent200 : UsageEvent :=
  { ts := "2026-02-22T14:45:00.000Z", gatewayId := some "gw1",
    model := some "opus", totalTokens := some 200 }

/-- The CORS whitelist as the spec words it: an `http` or `https` origin
whose host is `localhost` or `127.0.0.1`, optionally with a numeric port. -/
def OriginAllowedSpec (o : String) : Prop :=
  ∃ scheme host port : String,
    (scheme = "http" ∨ scheme = "https") ∧
    (host = "localhost" ∨ host = "127.0.0.1") ∧
    (port = "" ∨ ∃ ds : List Char, ds ≠ [] ∧ (∀ c ∈ ds, c.isDigit = true) ∧ port = ⟨':' :: ds⟩) ∧
    o = scheme ++ "://" ++ host ++ port

/-! ### Supporting lemmas -/

theorem sumBy_nil (f : α → Int) : sumBy ([] : List α) f = 0 := rfl

theorem sumBy_cons (a : α) (l : List α) (f : α → Int) :
    sumBy (a :: l) f = f a + sumBy l f := by
  simp [sumBy]

theorem sumBy_append (l₁ l₂ : List α) (f : α → Int) :
    sumBy (l₁ ++ l₂) f = sumBy l₁ f + sumBy l₂ f := by
  simp [sumBy]

theorem statKey_bumpRow (r e : StatRow) : statKey (bumpRow r e) = statKey r := rfl

theorem upsert_filter_sum (f : StatRow → Int)
    (hb : ∀ r e, f (bumpRow r e) = f r + f e) :
    ∀ (rows : List StatRow) (e : StatRow) (k : String × String × String),
      sumBy ((upsertStat rows e).filter (fun r => decide (statKey r = k))) f
        = sumBy (rows.filter (fun r => decide (statKey r = k))) f
          + (if statKey e = k then f e else 0) := by
  intro rows
  induction rows with
  | nil =>
      intro e k
      by_cases hk : statKey e = k <;>
        simp [upsertStat, sumBy, hk]
  | cons r rs ih =>
      intro e k
      by_cases he : statKey r = statKey e
      · have hupd : upsertStat (r :: rs) e = bumpRow r e :: rs := by
          simp [upsertStat, he]
        rw [hupd]
        by_cases hk : statKey r = k
        · have hek : statKey e = k := he ▸ hk
          rw [List.filter_cons, List.filter_cons]
          simp only [statKey_bumpRow, hk, hek, decide_True, if_pos, ite_true,
            sumBy_cons, hb]
          ring
        · have hek : ¬ statKey e = k := fun h => hk (he ▸ h)
          simp [List.filter_cons, statKey_bumpRow, hk, hek]
      · have hupd : upsertStat (r :: rs) e = r :: upsertStat rs e := by
          simp [upsertStat, he]
        rw [hupd, List.filter_cons, List.filter_cons]
        by_cases hk : statKey r = k
        · simp only [hk, decide_True, ite_true, sumBy_cons, ih e k]
          ring
        · simp [hk, ih e k]

theorem upsert_keys_mem :
    ∀ (rows : List StatRow) (e : StatRow) (p : String × String × String),
      p ∈ (upsertStat rows e).map statKey → p ∈ rows.map statKey ∨ p = statKey e := by
  intro rows
  induction rows with
  | nil =>
      intro e p hp
      simp [upsertStat] at hp
      exact Or.inr hp
  | cons r rs ih =>
      intro e p hp
      by_cases he : statKey r = statKey e
      · rw [show upsertStat (r :: rs) e = bumpRow r e :: rs by simp [upsertStat, he]] at hp
        rcases List.mem_map.mp hp with ⟨x, hx, rfl⟩
        rcases List.mem_cons.mp hx with rfl | hx
        · exact Or.inl (by simp [statKey_bumpRow])
        · exact Or.inl (by
            rw [List.map_cons]
            exact List.mem_cons_of_mem _ (List.mem_map.mpr ⟨x, hx, rfl⟩))
      · rw [show upsertStat (r :: rs) e = r :: upsertStat rs e by simp [upsertStat, he]] at hp
        rcases List.mem_map.mp hp with ⟨x, hx, rfl⟩
        rcases List.mem_cons.mp hx with rfl | hx
        · exact Or.inl (by simp)
        · rcases ih e (statKey x) (List.mem_map.mpr ⟨x, hx, rfl⟩) with h | h
          · exact Or.inl (by rw [List.map_cons]; exact List.mem_cons_of_mem _ h)
          · exact Or.inr h

theorem upsert_keys_nodup :
    ∀ (rows : List StatRow) (e : StatRow),
      (rows.map statKey).Nodup → ((upsertStat rows e).map statKey).Nodup := by
  intro rows
  induction rows with
  | nil =>
      intro e _
      simp [upsertStat]
  | cons r rs ih =>
      intro e hnd
      rw [List.map_cons, List.nodup_cons] at hnd
      by_cases he : statKey r = statKey e
      · rw [show upsertStat (r :: rs) e = bumpRow r e :: rs by simp [upsertStat, he]]
        rw [List.map_cons, List.nodup_cons, statKey_bumpRow]
        exact hnd
      · rw [show upsertStat (r :: rs) e = r :: upsertStat rs e by simp [upsertStat, he]]
        rw [List.map_cons, List.nodup_cons]
        refine ⟨?_, ih e hnd.2⟩
        intro hmem
        rcases upsert_keys_mem rs e (statKey r) hmem with h | h
        · exact hnd.1 h
        · exact he h

theorem nodup_filter_key_len_le_one :
    ∀ (rows : List StatRow), (rows.map statKey).Nodup →
      ∀ k, (rows.filter (fun r => decide (statKey r = k))).length ≤ 1 := by
  intro rows
  induction rows with
  | nil => intro _ k; simp
  | cons r rs ih =>
      intro hnd k
      rw [List.map_cons, List.nodup_cons] at hnd
      rw [List.filter_cons]
      by_cases hk : statKey r = k
      · simp only [hk, decide_True, ite_true, List.length_cons]
        have : (rs.filter (fun r => decide (statKey r = k))).length = 0 := by
          rw [List.length_eq_zero]
          rw [List.filter_eq_nil_iff]
          intro a ha
          simp only [decide_eq_true_eq]
          intro hak
          exact hnd.1 (List.mem_map.mpr ⟨a, ha, by rw [hak, hk]⟩)
        omega
      · simp only [hk, decide_False, ite_false]
        exact ih hnd.2 k

theorem flushBatchFrom_all_ok (fail : Nat → Bool) :
    ∀ (es : List UsageEvent) (db : MetricsDB) (i : Nat),
      (∀ j, j < es.length → fail (i + j) = false) →
      flushBatchFrom fail db i es = recordAll db es := by
  intro es
  induction es with
  | nil => intro db i _; rfl
  | cons e es ih =>
      intro db i h
      have h0 : fail i = false := by simpa using h 0 (by simp)
      have : flushBatchFrom fail db i (e :: es)
          = flushBatchFrom fail (recordUsage db e) (i + 1) es := by
        simp [flushBatchFrom, h0]
      rw [this, ih (recordUsage db e) (i + 1) (fun j hj => by
        have := h (j + 1) (by simpa using Nat.succ_lt_succ hj)
        simpa [Nat.add_assoc, Nat.add_comm 1 j] using this)]
      rfl

theorem flushBatchFrom_append (fail : Nat → Bool) :
    ∀ (pre rest : List UsageEvent) (db : MetricsDB) (i : Nat),
      flushBatchFrom fail db i (pre ++ rest)
        = flushBatchFrom fail (flushBatchFrom fail db i pre) (i + pre.length) rest := by
  intro pre
  induction pre with
  | nil => intro rest db i; rfl
  | cons e es ih =>
      intro rest db i
      show flushBatchFrom fail _ (i + 1) (es ++ rest) = _
      rw [ih rest _ (i + 1)]
      simp [flushBatchFrom, Nat.add_assoc, Nat.add_comm 1 es.length]

theorem statTotal_upsert (rows : List StatRow) (e : StatRow) (k : String × String × String) :
    statTotal (upsertStat rows e) k
      = statTotal rows k + (if statKey e = k then e.total_tokens else 0) :=
  upsert_filter_sum (fun r => r.total_tokens) (fun _ _ => rfl) rows e k

theorem statCount_upsert (rows : List StatRow) (e : StatRow) (k : String × String × String) :
    statCount (upsertStat rows e) k
      = statCount rows k + (if statKey e = k then e.event_count else 0) :=
  upsert_filter_sum (fun r => r.event_count) (fun _ _ => rfl) rows e k

theorem rawHourTotal_append_single (raws : List RawRow) (r : RawRow)
    (k : String × String × String) :
    rawHourTotal (raws ++ [r]) k
      = rawHourTotal raws k + (if rawHourKey r = k then r.total_tokens.getD 0 else 0) := by
  unfold rawHourTotal
  rw [List.filter_append, sumBy_append]
  congr 1
  by_cases hk : rawHourKey r = k <;> simp [sumBy, hk]

theorem rawHourCount_append_single (raws : List RawRow) (r : RawRow)
    (k : String × String × String) :
    rawHourCount (raws ++ [r]) k
      = rawHourCount raws k + (if rawHourKey r = k then 1 else 0) := by
  unfold rawHourCount
  rw [List.filter_append, List.length_append]
  by_cases hk : rawHourKey r = k <;> simp [hk]

theorem hourlyInv_empty : hourlyInv emptyDB := by
  refine ⟨by simp [emptyDB], ?_⟩
  intro k
  exact ⟨rfl, rfl⟩

theorem hourlyInv_record (db : MetricsDB) (e : UsageEvent) (h : hourlyInv db) :
    hourlyInv (recordUsage db e) := by
  obtain ⟨hnd, hsums⟩ := h
  have hhs : (recordUsage db e).hourly_stats = upsertStat db.hourly_stats (hourlyRowOf e) := rfl
  have hraw : (recordUsage db e).usage_events = db.usage_events ++ [rawOf e] := rfl
  refine ⟨?_, ?_⟩
  · rw [hhs]
    exact upsert_keys_nodup _ _ hnd
  · intro k
    refine ⟨?_, ?_⟩
    · rw [hhs, hraw, statTotal_upsert, rawHourTotal_append_single, (hsums k).1]
      congr 1
    · rw [hhs, hraw, statCount_upsert, rawHourCount_append_single, (hsums k).2]
      congr 1

theorem hourlyInv_recordAll :
    ∀ (events : List UsageEvent) (db : MetricsDB),
      hourlyInv db → hourlyInv (recordAll db events) := by
  intro events
  induction events with
  | nil => intro db h; exact h
  | cons e es ih =>
      intro db h
      exact ih (recordUsage db e) (hourlyInv_record db e h)

theorem mem_insSorted (le : α → α → Bool) (x a : α) :
    ∀ l : List α, a ∈ insSorted le x l ↔ a = x ∨ a ∈ l := by
  intro l
  induction l with
  | nil => simp [insSorted]
  | cons y ys ih =>
      by_cases h : le x y = true
      · simp [insSorted, h]
      · simp only [insSorted, h, Bool.false_eq_true, if_false, List.mem_cons, ih]
        tauto

theorem mem_sortBy (le : α → α → Bool) (a : α) :
    ∀ l : List α, a ∈ sortBy le l ↔ a ∈ l := by
  intro l
  induction l with
  | nil => simp [sortBy]
  | cons x xs ih => simp [sortBy, mem_insSorted, ih]

theorem sorted_insSorted (le : α → α → Bool)
    (htrans : ∀ a b c, le a b = true → le b c = true → le a c = true)
    (htot : ∀ a b, le a b = true ∨ le b a = true) (x : α) :
    ∀ l : List α, l.Sorted (fun a b => le a b = true) →
      (insSorted le x l).Sorted (fun a b => le a b = true) := by
  intro l
  induction l with
  | nil => intro _; simp [insSorted, List.Sorted]
  | cons y ys ih =>
      intro hs
      rw [List.sorted_cons] at hs
      by_cases h : le x y = true
      · simp only [insSorted, h, if_true]
        rw [List.sorted_cons]
        refine ⟨?_, ?_⟩
        · intro b hb
          rcases List.mem_cons.mp hb with rfl | hb
          · exact h
          · exact htrans x y b h (hs.1 b hb)
        · rw [List.sorted_cons]; exact hs
      · simp only [insSorted, h, Bool.false_eq_true, if_false]
        rw [List.sorted_cons]
        refine ⟨?_, ih hs.2⟩
        intro b hb
        rcases (mem_insSorted le x b ys).mp hb with rfl | hb
        · rcases htot b y with h' | h'
          · exact absurd h' h
          · exact h'
        · exact hs.1 b hb

theorem sorted_sortBy (le : α → α → Bool)
    (htrans : ∀ a b c, le a b = true → le b c = true → le a c = true)
    (htot : ∀ a b, le a b = true ∨ le b a = true) :
    ∀ l : List α, (sortBy le l).Sorted (fun a b => le a b = true) := by
  intro l
  induction l with
  | nil => simp [sortBy, List.Sorted]
  | cons x xs ih => exact sorted_insSorted le htrans htot x _ ih

theorem charListLtB_iff : ∀ as bs : List Char, charListLtB as bs = true ↔ as < bs := by
  intro as
  induction as with
  | nil =>
      intro bs
      cases bs with
      | nil =>
          simp only [charListLtB, Bool.false_eq_true, false_iff]
          intro h
          cases h
      | cons b bs =>
          simp only [charListLtB, true_iff]
          exact List.Lex.nil
  | cons a as ih =>
      intro bs
      cases bs with
      | nil =>
          simp only [charListLtB, Bool.false_eq_true, false_iff]
          intro h
          cases h
      | cons b bs =>
          by_cases hab : a < b
          · simp only [charListLtB, hab, if_true, true_iff]
            exact List.Lex.rel hab
          · by_cases hba : b < a
            · simp only [charListLtB, hab, hba, if_true, if_false, Bool.false_eq_true, false_iff]
              intro h
              cases h with
              | cons h3 => exact lt_irrefl a hba
              | rel h1 => exact hab h1
            · have heq : a = b := le_antisymm (not_lt.mp hba) (not_lt.mp hab)
              subst heq
              simp only [charListLtB, hab, hba, if_false, ih bs]
              constructor
              · intro h
                exact List.Lex.cons h
              · intro h
                cases h with
                | cons h3 => exact h3
                | rel h1 => exact absurd h1 hab

theorem strLtB_iff (a b : String) : strLtB a b = true ↔ a < b := by
  rw [strLtB, charListLtB_iff]
  exact Iff.symm String.lt_iff_toList_lt

theorem strLtB_eq_false_iff (a b : String) : strLtB a b = false ↔ ¬ a < b := by
  rw [← Bool.not_eq_true, strLtB_iff]

theorem strLeB_iff (a b : String) : strLeB a b = true ↔ a ≤ b := by
  rw [strLeB, Bool.not_eq_true', strLtB_eq_false_iff]
  exact not_lt

theorem insSorted_perm (le : α → α → Bool) (x : α) :
    ∀ l : List α, List.Perm (insSorted le x l) (x :: l) := by
  intro l
  induction l with
  | nil => simp [insSorted]
  | cons y ys ih =>
      by_cases h : le x y = true
      · simp [insSorted, h]
      · simp only [insSorted, h, Bool.false_eq_true, if_false]
        exact (List.Perm.cons y ih).trans (List.Perm.swap x y ys)

theorem sortBy_perm (le : α → α → Bool) : ∀ l : List α, List.Perm (sortBy le l) l := by
  intro l
  induction l with
  | nil => simp [sortBy]
  | cons x xs ih =>
      exact (insSorted_perm le x (sortBy le xs)).trans (List.Perm.cons x ih)

theorem tokensDesc_trans (a b c : ModelDistRow) :
    decide (b.total_tokens ≤ a.total_tokens) = true →
    decide (c.total_tokens ≤ b.total_tokens) = true →
    decide (c.total_tokens ≤ a.total_tokens) = true := by
  simp only [decide_eq_true_eq]
  intro h1 h2
  exact le_trans h2 h1

theorem tokensDesc_total (a b : ModelDistRow) :
    decide (b.total_tokens ≤ a.total_tokens) = true ∨
    decide (a.total_tokens ≤ b.total_tokens) = true := by
  simp only [decide_eq_true_eq]
  exact le_total _ _

theorem bucketLe_trans (a b c : StatRow) :
    strLeB a.bucket b.bucket = true → strLeB b.bucket c.bucket = true →
    strLeB a.bucket c.bucket = true := by
  simp only [strLeB_iff]
  exact le_trans

theorem bucketLe_total (a b : StatRow) :
    strLeB a.bucket b.bucket = true ∨ strLeB b.bucket a.bucket = true := by
  simp only [strLeB_iff]
  exact le_total _ _

theorem sumByQ_cons (a : α) (l : List α) (f : α → Rat) :
    sumByQ (a :: l) f = f a + sumByQ l f := by
  simp [sumByQ]

theorem bumpMap_keys (m : List (String × Int × Rat)) (k : String) (tok : Int) (cost : Rat)
    (h : ∀ p ∈ m, p.1 ≠ "") (hk : k ≠ "") :
    ∀ p ∈ bumpMap m k tok cost, p.1 ≠ "" := by
  intro p hp
  rw [bumpMap] at hp
  by_cases hany : m.any (fun p => p.1 = k)
  · rw [if_pos hany] at hp
    rcases List.mem_map.mp hp with ⟨q, hq, rfl⟩
    by_cases hqk : q.1 = k
    · simpa [hqk] using hk
    · simpa [hqk] using h q hq
  · rw [if_neg hany] at hp
    rcases List.mem_append.mp hp with hp | hp
    · exact h p hp
    · rw [List.mem_singleton] at hp
      subst hp
      exact hk

theorem ovFold_spec :
    ∀ (rows : List StatRow) (acc : OvAcc),
      (rows.foldl ovStep acc).totalTokens = acc.totalTokens + sumBy rows (·.total_tokens) ∧
      (rows.foldl ovStep acc).totalCost = acc.totalCost + sumByQ rows (·.cost_usd) ∧
      (rows.foldl ovStep acc).totalEvents = acc.totalEvents + sumBy rows (·.event_count) ∧
      (rows.foldl ovStep acc).inputTokens = acc.inputTokens + sumBy rows (·.input_tokens) ∧
      (rows.foldl ovStep acc).outputTokens = acc.outputTokens + sumBy rows (·.output_tokens) ∧
      ((∀ p ∈ acc.gwMap, p.1 ≠ "") →
        ∀ p ∈ (rows.foldl ovStep acc).gwMap, p.1 ≠ "") ∧
      ((∀ p ∈ acc.modelMap, p.1 ≠ "") →
        ∀ p ∈ (rows.foldl ovStep acc).modelMap, p.1 ≠ "") := by
  intro rows
  induction rows with
  | nil =>
      intro acc
      refine ⟨by simp [sumBy], by simp [sumByQ], by simp [sumBy], by simp [sumBy],
        by simp [sumBy], fun h => h, fun h => h⟩
  | cons r rs ih =>
      intro acc
      have hfold : (r :: rs).foldl ovStep acc = rs.foldl ovStep (ovStep acc r) := rfl
      obtain ⟨h1, h2, h3, h4, h5, h6, h7⟩ := ih (ovStep acc r)
      rw [hfold]
      refine ⟨?_, ?_, ?_, ?_, ?_, ?_, ?_⟩
      · rw [h1, sumBy_cons]
        show acc.totalTokens + r.total_tokens + _ = _
        ring
      · rw [h2, sumByQ_cons]
        show acc.totalCost + r.cost_usd + _ = _
        ring
      · rw [h3, sumBy_cons]
        show acc.totalEvents + r.event_count + _ = _
        ring
      · rw [h4, sumBy_cons]
        show acc.inputTokens + r.input_tokens + _ = _
        ring
      · rw [h5, sumBy_cons]
        show acc.outputTokens + r.output_tokens + _ = _
        ring
      · intro hacc
        apply h6
        show ∀ p ∈ (if r.gateway_id ≠ "" then bumpMap acc.gwMap r.gateway_id _ _
            else acc.gwMap), p.1 ≠ ""
        by_cases hg : r.gateway_id ≠ ""
        · rw [if_pos hg]
          exact bumpMap_keys _ _ _ _ hacc hg
        · rw [if_neg hg]
          exact hacc
      · intro hacc
        apply h7
        show ∀ p ∈ (if r.model ≠ "" then bumpMap acc.modelMap r.model _ _
            else acc.modelMap), p.1 ≠ ""
        by_cases hg : r.model ≠ ""
        · rw [if_pos hg]
          exact bumpMap_keys _ _ _ _ hacc hg
        · rw [if_neg hg]
          exact hacc

theorem topOf_ids (m : List (String × Int × Rat)) (h : ∀ p ∈ m, p.1 ≠ "") :
    ∀ t ∈ topOf m, t.id ≠ "" := by
  intro t ht
  rw [topOf] at ht
  have ht2 := List.take_subset 10 _ ht
  rw [mem_sortBy, List.mem_map] at ht2
  obtain ⟨p, hp, rfl⟩ := ht2
  exact h p hp

theorem stripPre_iff : ∀ (p s r : List Char), stripPre p s = some r ↔ s = p ++ r := by
  intro p
  induction p with
  | nil =>
      intro s r
      simp [stripPre]
  | cons a ps ih =>
      intro s r
      cases s with
      | nil => simp [stripPre]
      | cons c cs =>
          by_cases hac : a = c
          · subst hac
            rw [stripPre, if_pos rfl]
            simp [ih]
          · rw [stripPre, if_neg hac]
            simp only [List.cons_append, List.cons.injEq]
            constructor
            · intro h; cases h
            · rintro ⟨h1, _⟩
              exact absurd h1.symm hac

theorem stripPre_append_self (p r : List Char) : stripPre p (p ++ r) = some r :=
  (stripPre_iff p (p ++ r) r).mpr rfl

theorem checkPortChars_iff (cs : List Char) :
    checkPortChars cs = true ↔
      cs = [] ∨ ∃ ds : List Char,
        ds ≠ [] ∧ (∀ c ∈ ds, c.isDigit = true) ∧ cs = ':' :: ds := by
  cases cs with
  | nil => simp [checkPortChars]
  | cons c ds =>
      rw [checkPortChars]
      simp only [Bool.and_eq_true, beq_iff_eq, Bool.not_eq_true',
        List.isEmpty_eq_false, List.all_eq_true, List.cons.injEq,
        decide_eq_true_eq]
      constructor
      · rintro ⟨⟨hc, hne⟩, hdig⟩
        exact Or.inr ⟨ds, hne, hdig, hc, rfl⟩
      · rintro (h | ⟨ds2, hne, hdig, hc, rfl⟩)
        · cases h
        · exact ⟨⟨hc, hne⟩, hdig⟩

theorem hostPortOk_iff (cs : List Char) :
    hostPortOk cs = true ↔
      ∃ hostL rest : List Char,
        (hostL = "localhost".data ∨ hostL = "127.0.0.1".data) ∧
        checkPortChars rest = true ∧ cs = hostL ++ rest := by
  constructor
  · intro h
    rw [hostPortOk] at h
    rcases hlh : stripPre "localhost".data cs with _ | rest
    · rw [hlh, Option.elim_none] at h
      rcases h127 : stripPre "127.0.0.1".data cs with _ | rest
      · rw [h127, Option.elim_none] at h
        cases h
      · rw [h127, Option.elim_some] at h
        exact ⟨_, rest, Or.inr rfl, h, (stripPre_iff _ _ _).mp h127⟩
    · rw [hlh, Option.elim_some] at h
      exact ⟨_, rest, Or.inl rfl, h, (stripPre_iff _ _ _).mp hlh⟩
  · rintro ⟨hostL, rest, hhost | hhost, hport, rfl⟩ <;> subst hhost
    · rw [hostPortOk, stripPre_append_self, Option.elim_some]
      exact hport
    · have hnone : stripPre "localhost".data ("127.0.0.1".data ++ rest) = none := rfl
      rw [hostPortOk, hnone, Option.elim_none, stripPre_append_self, Option.elim_some]
      exact hport

theorem originSpec_build (o scheme : String)
    (hscheme : scheme = "http" ∨ scheme = "https")
    (hostL prest : List Char)
    (hhost : hostL = "localhost".data ∨ hostL = "127.0.0.1".data)
    (hport : checkPortChars prest = true)
    (hdata : o.data = (scheme ++ "://").data ++ (hostL ++ prest)) :
    OriginAllowedSpec o := by
  refine ⟨scheme, ⟨hostL⟩, ⟨prest⟩, hscheme, ?_, ?_, ?_⟩
  · rcases hhost with rfl | rfl
    · exact Or.inl rfl
    · exact Or.inr rfl
  · rcases (checkPortChars_iff prest).mp hport with rfl | ⟨ds, hne, hdig, rfl⟩
    · exact Or.inl rfl
    · exact Or.inr ⟨ds, hne, hdig, rfl⟩
  · apply String.ext
    rw [hdata]
    rw [String.data_append, String.data_append, String.data_append]
    show _ = (scheme.data ++ "://".data ++ hostL) ++ prest
    rw [← String.data_append]
    simp [List.append_assoc]

theorem corsOriginAllowed_iff (o : String) :
    corsOriginAllowed o = true ↔ OriginAllowedSpec o := by
  constructor
  · intro h
    rw [corsOriginAllowed] at h
    rcases hh : stripPre "http://".data o.data with _ | rest
    · rw [hh, Option.elim_none] at h
      rcases hs : stripPre "https://".data o.data with _ | rest
      · rw [hs, Option.elim_none] at h
        cases h
      · rw [hs, Option.elim_some] at h
        obtain ⟨hostL, prest, hhost, hport, rfl⟩ := (hostPortOk_iff rest).mp h
        exact originSpec_build o "https" (Or.inr rfl) hostL prest hhost hport
          (by
            have := (stripPre_iff _ _ _).mp hs
            rw [this]
            rw [show ("https" ++ "://" : String) = "https://" from rfl])
    · rw [hh, Option.elim_some] at h
      obtain ⟨hostL, prest, hhost, hport, rfl⟩ := (hostPortOk_iff rest).mp h
      exact originSpec_build o "http" (Or.inl rfl) hostL prest hhost hport
        (by
          have := (stripPre_iff _ _ _).mp hh
          rw [this]
          rw [show ("http" ++ "://" : String) = "http://" from rfl])
  · rintro ⟨scheme, host, port, hscheme, hhost, hport, rfl⟩
    have hportOk : checkPortChars port.data = true := by
      apply (checkPortChars_iff port.data).mpr
      rcases hport with rfl | ⟨ds, hne, hdig, rfl⟩
      · exact Or.inl rfl
      · exact Or.inr ⟨ds, hne, hdig, rfl⟩
    have hhostData : host.data = "localhost".data ∨ host.data = "127.0.0.1".data := by
      rcases hhost with rfl | rfl
      · exact Or.inl rfl
      · exact Or.inr rfl
    rcases hscheme with rfl | rfl
    · have hdata : ("http" ++ "://" ++ host ++ port).data
          = "http://".data ++ (host.data ++ port.data) := by
        rw [show ("http" ++ "://" : String) = "http://" from rfl]
        rw [String.data_append, String.data_append, List.append_assoc]
      rw [corsOriginAllowed, hdata, stripPre_append_self, Option.elim_some]
      exact (hostPortOk_iff _).mpr ⟨host.data, port.data, hhostData, hportOk, rfl⟩
    · have hdata : ("https" ++ "://" ++ host ++ port).data
          = "https://".data ++ (host.data ++ port.data) := by
        rw [show ("https" ++ "://" : String) = "https://" from rfl]
        rw [String.data_append, String.data_append, List.append_assoc]
      have hnone : stripPre "http://".data
          ("https://".data ++ (host.data ++ port.data)) = none := rfl
      rw [corsOriginAllowed, hdata, hnone, Option.elim_none,
        stripPre_append_self, Option.elim_some]
      exact (hostPortOk_iff _).mpr ⟨host.data, port.data, hhostData, hportOk, rfl⟩

/-! ### Claim theorems -/

/-- C1: starting from an empty store, for every `(hour, gateway, model)`
key the hourly rollup holds `total_tokens` equal to the sum of
`totalTokens` (defaulting to 0) over the raw events mapping to that key and
`event_count` equal to their number, with at most one rollup row per key;
in particular two events with the same key and totals 100 and 200 yield the
single rollup row with `total_tokens = 300`, `event_count = 2`. -/
theorem recordUsage_hourly_rollup_law (events : List UsageEvent)
    (k : String × String × String) :
    statTotal (recordAll emptyDB events).hourly_stats k
      = rawHourTotal (recordAll emptyDB events).usage_events k ∧
    statCount (recordAll emptyDB events).hourly_stats k
      = rawHourCount (recordAll emptyDB events).usage_events k ∧
    ((recordAll emptyDB events).hourly_stats.filter
        (fun r => decide (statKey r = k))).length ≤ 1 ∧
    (recordAll emptyDB [sampleEvent100, sampleEvent200]).hourly_stats
      = [⟨"2026-02-22T14:00:00Z", "gw1", "opus", 2, 0, 0, 300, 0⟩] := by
  have h := hourlyInv_recordAll events emptyDB hourlyInv_empty
  have h1 : (recordAll emptyDB [sampleEvent100, sampleEvent200]).hourly_stats
      = [bumpRow (hourlyRowOf sampleEvent100) (hourlyRowOf sampleEvent200)] := rfl
  have h2 : bumpRow (hourlyRowOf sampleEvent100) (hourlyRowOf sampleEvent200)
      = ⟨"2026-02-22T14:00:00Z", "gw1", "opus", 2, 0, 0, 300, 0⟩ := by
    show (⟨"2026-02-22T14:00:00Z", "gw1", "opus", 1 + 1, 0 + 0, 0 + 0,
        100 + 200, 0 + 0⟩ : StatRow) = _
    norm_num [StatRow.mk.injEq]
  exact ⟨(h.2 k).1, (h.2 k).2, nodup_filter_key_len_le_one _ h.1 k, by rw [h1, h2]⟩

/-- C2: `recordUsage` applies the raw insert and both rollup upserts
atomically: if all three statements succeed the store holds all three
writes, and if any statement fails the transaction rolls back and the store
equals its state before the call. -/
theorem recordUsageTx_atomic (db : MetricsDB) (e : UsageEvent) (w : WriteFailures) :
    recordUsageTx db e w =
      if w.failRaw || w.failHourly || w.failDaily then (db, false)
      else (recordUsage db e, true) := by
  rcases w with ⟨fr, fh, fd⟩
  cases fr <;> cases fh <;> cases fd <;>
    simp [recordUsageTx, runTxSteps, recordUsage]

/-- C4: a store-level failure while flushing one buffered event is caught
and discarded: flushing a batch `pre ++ e :: post` in which exactly the
write of `e` throws still records every event of `pre` and `post`, empties
the buffer, and returns normally. -/
theorem flushSync_failure_isolation (gw : String) (bms bsz : Nat) (db : MetricsDB)
    (pre : List UsageEvent) (e : UsageEvent) (post : List UsageEvent) :
    flushSync ⟨gw, bms, bsz, pre ++ e :: post, db⟩ (failOnly pre.length)
      = ⟨gw, bms, bsz, [], recordAll (recordAll db pre) post⟩ := by
  have hne : ((pre ++ e :: post).isEmpty) = false := by
    cases pre <;> simp
  have hpre : flushBatchFrom (failOnly pre.length) db 0 pre = recordAll db pre := by
    apply flushBatchFrom_all_ok
    intro j hj
    simp only [failOnly, Nat.zero_add, beq_eq_false_iff_ne]
    omega
  have hstep : flushBatchFrom (failOnly pre.length) (recordAll db pre) pre.length (e :: post)
      = recordAll (recordAll db pre) post := by
    have hskip : failOnly pre.length pre.length = true := by simp [failOnly]
    show flushBatchFrom (failOnly pre.length)
        (if failOnly pre.length pre.length then recordAll db pre
         else recordUsage (recordAll db pre) e) (pre.length + 1) post = _
    rw [hskip]
    simp only [if_true]
    apply flushBatchFrom_all_ok
    intro j hj
    simp only [failOnly, beq_eq_false_iff_ne]
    omega
  simp only [flushSync, hne, Bool.false_eq_true, if_false]
  rw [flushBatchFrom_append, hpre]
  simp only [Nat.zero_add]
  rw [hstep]

/-- C3: `getHourlyStats(H)` evaluated at time `now` returns exactly the
hourly rollup rows whose bucket key is `≥` the hour bucket of
`now − H` hours, ascending by bucket key; the boundary bucket equal to the
cutoff is included and no returned bucket is older than the cutoff. -/
theorem getHourlyStats_window_exact (db : MetricsDB) (now hours : Nat) :
    (∀ r : StatRow, r ∈ getHourlyStats db now hours ↔
        r ∈ db.hourly_stats ∧ hourlyCutoffStr now hours ≤ r.bucket) ∧
    (getHourlyStats db now hours).Sorted (fun a b => a.bucket ≤ b.bucket) ∧
    (∀ r ∈ getHourlyStats db now hours, ¬ r.bucket < hourlyCutoffStr now hours) := by
  have hmem : ∀ r : StatRow, r ∈ getHourlyStats db now hours ↔
      r ∈ db.hourly_stats ∧ hourlyCutoffStr now hours ≤ r.bucket := by
    intro r
    rw [getHourlyStats, mem_sortBy, List.mem_filter]
    constructor
    · rintro ⟨h1, h2⟩
      exact ⟨h1, (strLeB_iff _ _).mp h2⟩
    · rintro ⟨h1, h2⟩
      exact ⟨h1, (strLeB_iff _ _).mpr h2⟩
  refine ⟨hmem, ?_, ?_⟩
  · have hs := sorted_sortBy (fun a b : StatRow => strLeB a.bucket b.bucket)
      bucketLe_trans bucketLe_total
      (db.hourly_stats.filter (fun r => strLeB (hourlyCutoffStr now hours) r.bucket))
    simp only [strLeB_iff] at hs
    exact hs
  · intro r hr
    exact not_lt.mpr ((hmem r).mp hr).2

/-- C3 witness: at `now = 1760227200123` with a 24-hour window the cutoff
is `2025-10-11T00:00:00Z`, and a rollup row sitting exactly on that
boundary bucket is returned. -/
theorem getHourlyStats_window_exact_witness :
    (⟨"2025-10-11T00:00:00Z", "gw", "m", 1, 0, 0, 10, 0⟩ : StatRow) ∈
      getHourlyStats ⟨[], [⟨"2025-10-11T00:00:00Z", "gw", "m", 1, 0, 0, 10, 0⟩], []⟩
        1760227200123 24 :=
  ((getHourlyStats_window_exact
      ⟨[], [⟨"2025-10-11T00:00:00Z", "gw", "m", 1, 0, 0, 10, 0⟩], []⟩
      1760227200123 24).1 _).mpr
    ⟨by decide, (strLeB_iff _ _).mp (by decide)⟩

/-- C6: `cleanupOldData` keeps exactly the raw, hourly and daily rows that
are not strictly older than their horizons (a row exactly at a horizon
boundary is preserved), and it is a no-op when no row is older than any
horizon.  (The embedded function is total: the call cannot raise.) -/
theorem cleanupOldData_strict_cutoffs (db : MetricsDB) (now : Nat) (ret : RetentionConfig) :
    (∀ r : RawRow, r ∈ (cleanupOldData db now ret).usage_events ↔
        r ∈ db.usage_events ∧ ¬ r.ts < isoOfMillis (now - ret.rawDays * 86400000)) ∧
    (∀ r : StatRow, r ∈ (cleanupOldData db now ret).hourly_stats ↔
        r ∈ db.hourly_stats ∧ ¬ r.bucket < hourlyCutoffStr now (ret.hourlyDays * 24)) ∧
    (∀ r : StatRow, r ∈ (cleanupOldData db now ret).daily_stats ↔
        r ∈ db.daily_stats ∧ ¬ r.bucket < dailyCutoffStr now ret.dailyDays) ∧
    ((∀ r ∈ db.usage_events, ¬ r.ts < isoOfMillis (now - ret.rawDays * 86400000)) →
     (∀ r ∈ db.hourly_stats, ¬ r.bucket < hourlyCutoffStr now (ret.hourlyDays * 24)) →
     (∀ r ∈ db.daily_stats, ¬ r.bucket < dailyCutoffStr now ret.dailyDays) →
     cleanupOldData db now ret = db) := by
  refine ⟨?_, ?_, ?_, ?_⟩
  · intro r
    rw [cleanupOldData, List.mem_filter]
    constructor
    · rintro ⟨h1, h2⟩
      rw [Bool.not_eq_true', strLtB_eq_false_iff] at h2
      exact ⟨h1, h2⟩
    · rintro ⟨h1, h2⟩
      rw [← strLtB_eq_false_iff, ← Bool.not_eq_true'] at h2
      exact ⟨h1, h2⟩
  · intro r
    rw [cleanupOldData, List.mem_filter]
    constructor
    · rintro ⟨h1, h2⟩
      rw [Bool.not_eq_true', strLtB_eq_false_iff] at h2
      exact ⟨h1, h2⟩
    · rintro ⟨h1, h2⟩
      rw [← strLtB_eq_false_iff, ← Bool.not_eq_true'] at h2
      exact ⟨h1, h2⟩
  · intro r
    rw [cleanupOldData, List.mem_filter]
    constructor
    · rintro ⟨h1, h2⟩
      rw [Bool.not_eq_true', strLtB_eq_false_iff] at h2
      exact ⟨h1, h2⟩
    · rintro ⟨h1, h2⟩
      rw [← strLtB_eq_false_iff, ← Bool.not_eq_true'] at h2
      exact ⟨h1, h2⟩
  · intro h1 h2 h3
    cases db with
    | mk raw hourly daily =>
        simp only [cleanupOldData, MetricsDB.mk.injEq]
        refine ⟨?_, ?_, ?_⟩
        · apply List.filter_eq_self.mpr
          intro r hr
          rw [Bool.not_eq_true', strLtB_eq_false_iff]
          exact h1 r hr
        · apply List.filter_eq_self.mpr
          intro r hr
          rw [Bool.not_eq_true', strLtB_eq_false_iff]
          exact h2 r hr
        · apply List.filter_eq_self.mpr
          intro r hr
          rw [Bool.not_eq_true', strLtB_eq_false_iff]
          exact h3 r hr

/-- C6 witness: with every row newer than its horizon, the call deletes
nothing (raw rows 30 days, hourly 90 days, daily 365 days; clock
`2025-10-12T00:00:00Z`). -/
theorem cleanupOldData_strict_cutoffs_witness :
    cleanupOldData
      ⟨[⟨"2025-10-01T00:00:00.000Z", "gw", none, none, none, none, none,
          none, none, none, none, none, some 10, none, none, none, none⟩],
       [⟨"2025-10-01T00:00:00Z", "gw", "m", 1, 0, 0, 10, 0⟩],
       [⟨"2025-10-01", "gw", "m", 1, 0, 0, 10, 0⟩]⟩
      1760227200000 ⟨30, 90, 365⟩
    = ⟨[⟨"2025-10-01T00:00:00.000Z", "gw", none, none, none, none, none,
          none, none, none, none, none, some 10, none, none, none, none⟩],
       [⟨"2025-10-01T00:00:00Z", "gw", "m", 1, 0, 0, 10, 0⟩],
       [⟨"2025-10-01", "gw", "m", 1, 0, 0, 10, 0⟩]⟩ :=
  (cleanupOldData_strict_cutoffs _ 1760227200000 ⟨30, 90, 365⟩).2.2.2
    (by
      intro r hr
      rw [List.mem_singleton] at hr
      subst hr
      exact (strLtB_eq_false_iff _ _).mp (by decide))
    (by
      intro r hr
      rw [List.mem_singleton] at hr
      subst hr
      exact (strLtB_eq_false_iff _ _).mp (by decide))
    (by
      intro r hr
      rw [List.mem_singleton] at hr
      subst hr
      exact (strLtB_eq_false_iff _ _).mp (by decide))

/-- C7: `getModelDistribution(days)` returns one row per distinct
non-empty model among the in-window daily rollups, carrying
`event_count`/`total_tokens`/`cost` summed across all gateways for that
model, sorted descending by `total_tokens`; empty-model rows are excluded
(the window holds exactly the in-window rows with a non-empty model). -/
theorem getModelDistribution_grouping (db : MetricsDB) (now days : Nat) :
    (∀ m : String,
        m ∈ (getModelDistribution db now days).map (·.model) ↔
          m ∈ (modelDistWindow db now days).map (·.model)) ∧
    ((getModelDistribution db now days).map (·.model)).Nodup ∧
    (∀ row ∈ getModelDistribution db now days,
        row.model ≠ "" ∧ row = modelGroupRow (modelDistWindow db now days) row.model) ∧
    (getModelDistribution db now days).Sorted
      (fun a b => b.total_tokens ≤ a.total_tokens) ∧
    (∀ r : StatRow, r ∈ modelDistWindow db now days ↔
        r ∈ db.daily_stats ∧ dailyCutoffStr now days ≤ r.bucket ∧ r.model ≠ "") := by
  have hwin : ∀ r : StatRow, r ∈ modelDistWindow db now days ↔
      r ∈ db.daily_stats ∧ dailyCutoffStr now days ≤ r.bucket ∧ r.model ≠ "" := by
    intro r
    rw [modelDistWindow, List.mem_filter, Bool.and_eq_true, strLeB_iff]
    constructor
    · rintro ⟨h1, h2, h3⟩
      exact ⟨h1, h2, of_decide_eq_true h3⟩
    · rintro ⟨h1, h2, h3⟩
      exact ⟨h1, h2, decide_eq_true h3⟩
  have hproj : ((((modelDistWindow db now days).map (·.model)).dedup).map
      (modelGroupRow (modelDistWindow db now days))).map (·.model)
      = ((modelDistWindow db now days).map (·.model)).dedup := by
    rw [List.map_map]
    have hcomp : ((fun row : ModelDistRow => row.model) ∘
        modelGroupRow (modelDistWindow db now days)) = fun m : String => m := by
      funext m
      rfl
    rw [hcomp]
    simp
  have hperm : List.Perm ((getModelDistribution db now days).map (·.model))
      (((modelDistWindow db now days).map (·.model)).dedup) := by
    rw [getModelDistribution]
    have h1 := List.Perm.map (fun row : ModelDistRow => row.model)
      (sortBy_perm (fun a b : ModelDistRow => decide (b.total_tokens ≤ a.total_tokens))
        ((((modelDistWindow db now days).map (·.model)).dedup).map
          (modelGroupRow (modelDistWindow db now days))))
    rw [hproj] at h1
    exact h1
  refine ⟨?_, ?_, ?_, ?_, hwin⟩
  · intro m
    rw [hperm.mem_iff, List.mem_dedup]
  · exact hperm.nodup_iff.mpr (List.nodup_dedup _)
  · intro row hrow
    rw [getModelDistribution, mem_sortBy, List.mem_map] at hrow
    obtain ⟨m, hm, rfl⟩ := hrow
    rw [List.mem_dedup, List.mem_map] at hm
    obtain ⟨r, hr, rfl⟩ := hm
    exact ⟨((hwin r).mp hr).2.2, rfl⟩
  · have hs := sorted_sortBy
      (fun a b : ModelDistRow => decide (b.total_tokens ≤ a.total_tokens))
      tokensDesc_trans tokensDesc_total
      ((((modelDistWindow db now days).map (·.model)).dedup).map
        (modelGroupRow (modelDistWindow db now days)))
    simp only [decide_eq_true_eq] at hs
    exact hs

/-- C7 witness: a concrete store with one in-window daily row for model
`opus`; `opus` appears among the returned models. -/
theorem getModelDistribution_grouping_witness :
    "opus" ∈ (getModelDistribution
        ⟨[], [], [⟨"2025-10-11", "gw1", "opus", 1, 0, 0, 10, 0⟩]⟩
        1760227200000 7).map (·.model) :=
  ((getModelDistribution_grouping
      ⟨[], [], [⟨"2025-10-11", "gw1", "opus", 1, 0, 0, 10, 0⟩]⟩
      1760227200000 7).1 "opus").mpr (by decide)

/-- C5: with `bufferSize = 3`, recording two `"model.usage"` events leaves
both buffered and the store untouched (no flush), while recording a third
flushes synchronously inside `record`: the buffer comes back empty and the
store holds all three events, with no explicit `flush()` call. -/
theorem record_size_trigger (gw : String) (bms : Nat) (db : MetricsDB)
    (ts1 ts2 ts3 : String) (e1 e2 e3 : DiagnosticEvent) :
    let u1 : DiagnosticEvent := { e1 with type := "model.usage" }
    let u2 : DiagnosticEvent := { e2 with type := "model.usage" }
    let u3 : DiagnosticEvent := { e3 with type := "model.usage" }
    let c2 := record (record ⟨gw, bms, 3, [], db⟩ ts1 u1 noFail) ts2 u2 noFail
    let c3 := record c2 ts3 u3 noFail
    c2.buffer = [mkEntry gw ts1 u1, mkEntry gw ts2 u2] ∧
    c2.db = db ∧
    c3.buffer = [] ∧
    c3.db = recordAll db [mkEntry gw ts1 u1, mkEntry gw ts2 u2, mkEntry gw ts3 u3] := by
  refine ⟨?_, ?_, ?_, ?_⟩ <;>
    simp [record, flushSync, flushBatchFrom, recordAll, noFail]

/-- C10: `buildOverview` counts rows with an empty gateway or model key in
all five window totals (`totalTokens`, `totalCost`, `totalEvents`,
`inputTokens`, `outputTokens`), while such rows contribute no entry to the
top-10 lists: no empty gateway id in `topGateways`, no empty model id in
`topModels`. -/
theorem buildOverview_totals_and_top_keys (rows : List StatRow) :
    (buildOverviewRows rows).totalTokens = sumBy rows (·.total_tokens) ∧
    (buildOverviewRows rows).totalCost = sumByQ rows (·.cost_usd) ∧
    (buildOverviewRows rows).totalEvents = sumBy rows (·.event_count) ∧
    (buildOverviewRows rows).inputTokens = sumBy rows (·.input_tokens) ∧
    (buildOverviewRows rows).outputTokens = sumBy rows (·.output_tokens) ∧
    (∀ t ∈ (buildOverviewRows rows).topGateways, t.id ≠ "") ∧
    (∀ t ∈ (buildOverviewRows rows).topModels, t.id ≠ "") := by
  obtain ⟨h1, h2, h3, h4, h5, h6, h7⟩ := ovFold_spec rows {}
  have hgw : ∀ p ∈ ({} : OvAcc).gwMap, p.1 ≠ "" := by
    intro p hp
    cases hp
  have hmd : ∀ p ∈ ({} : OvAcc).modelMap, p.1 ≠ "" := by
    intro p hp
    cases hp
  refine ⟨?_, ?_, ?_, ?_, ?_, ?_, ?_⟩
  · show (rows.foldl ovStep {}).totalTokens = _
    rw [h1]
    show (0 : Int) + _ = _
    ring
  · show (rows.foldl ovStep {}).totalCost = _
    rw [h2]
    show (0 : Rat) + _ = _
    ring
  · show (rows.foldl ovStep {}).totalEvents = _
    rw [h3]
    show (0 : Int) + _ = _
    ring
  · show (rows.foldl ovStep {}).inputTokens = _
    rw [h4]
    show (0 : Int) + _ = _
    ring
  · show (rows.foldl ovStep {}).outputTokens = _
    rw [h5]
    show (0 : Int) + _ = _
    ring
  · show ∀ t ∈ topOf (rows.foldl ovStep {}).gwMap, t.id ≠ ""
    exact topOf_ids _ (h6 hgw)
  · show ∀ t ∈ topOf (rows.foldl ovStep {}).modelMap, t.id ≠ ""
    exact topOf_ids _ (h7 hmd)

/-- C10 witness: one hourly row with empty gateway and model keys; its 5
tokens are still counted in the window total. -/
theorem buildOverview_totals_and_top_keys_witness :
    (buildOverviewRows [⟨"2025-10-11T00:00:00Z", "", "", 2, 3, 4, 5, 0⟩]).totalTokens
      = sumBy [(⟨"2025-10-11T00:00:00Z", "", "", 2, 3, 4, 5, 0⟩ : StatRow)]
          (·.total_tokens) :=
  (buildOverview_totals_and_top_keys
    [⟨"2025-10-11T00:00:00Z", "", "", 2, 3, 4, 5, 0⟩]).1

/-- C8: a request carrying a (nonempty) `Origin` header is answered 403
unless the origin is `http(s)://localhost` or `http(s)://127.0.0.1` with an
optional numeric port; a permitted origin is echoed verbatim in
`Access-Control-Allow-Origin` together with the allowed `GET, OPTIONS`
methods and `Content-Type` header, and an `OPTIONS` preflight is answered
204 with an empty body. -/
theorem cors_localhost_policy (dir : String) (fs : FileSys) (db : MetricsDB)
    (now : Nat) (req : Request) (o : String)
    (ho : req.origin = some o) (hne : o ≠ "") :
    (¬ OriginAllowedSpec o →
        handleRequest dir fs db now req = ⟨403, [], .text "Forbidden"⟩) ∧
    (OriginAllowedSpec o →
        ("Access-Control-Allow-Origin", o) ∈ (handleRequest dir fs db now req).headers ∧
        ("Access-Control-Allow-Methods", "GET, OPTIONS")
          ∈ (handleRequest dir fs db now req).headers ∧
        ("Access-Control-Allow-Headers", "Content-Type")
          ∈ (handleRequest dir fs db now req).headers) ∧
    (OriginAllowedSpec o → req.method = "OPTIONS" →
        handleRequest dir fs db now req = ⟨204, corsHeadersFor o, .empty⟩) := by
  refine ⟨?_, ?_, ?_⟩
  · intro hspec
    have hfalse : corsOriginAllowed o = false := by
      rw [← Bool.not_eq_true, corsOriginAllowed_iff]
      exact hspec
    rw [handleRequest, ho]
    simp only [Option.getD_some]
    rw [if_pos ⟨hne, hfalse⟩]
  · intro hspec
    have htrue : corsOriginAllowed o = true := (corsOriginAllowed_iff o).mpr hspec
    have hbranch : handleRequest dir fs db now req =
        (if req.method = "OPTIONS" then
          ({ status := 204, headers := corsHeadersFor o, body := .empty } : Response)
        else if (stripPre "/api/".data req.path.data).isSome then
          withHeaders (corsHeadersFor o) (handleApi db now req.path req.query)
        else withHeaders (corsHeadersFor o) (serveStatic dir fs req.path)) := by
      rw [handleRequest, ho]
      simp only [Option.getD_some]
      rw [if_neg (by
        rintro ⟨_, hf⟩
        rw [htrue] at hf
        cases hf)]
      rw [if_pos hne]
    rw [hbranch]
    by_cases hm : req.method = "OPTIONS"
    · rw [if_pos hm]
      refine ⟨?_, ?_, ?_⟩ <;> simp [corsHeadersFor]
    · rw [if_neg hm]
      by_cases hapi : (stripPre "/api/".data req.path.data).isSome
      · rw [if_pos hapi]
        refine ⟨?_, ?_, ?_⟩ <;>
          exact List.mem_append_left _ (by simp [corsHeadersFor])
      · rw [if_neg hapi]
        refine ⟨?_, ?_, ?_⟩ <;>
          exact List.mem_append_left _ (by simp [corsHeadersFor])
  · intro hspec hm
    have htrue : corsOriginAllowed o = true := (corsOriginAllowed_iff o).mpr hspec
    rw [handleRequest, ho]
    simp only [Option.getD_some]
    rw [if_neg (by
      rintro ⟨_, hf⟩
      rw [htrue] at hf
      cases hf)]
    rw [if_pos hne, if_pos hm]

/-- C8 witness: the forbidden origin `http://evil.example` is rejected with
403, and the permitted origin `http://localhost:3000` on an `OPTIONS`
preflight gets 204 with the origin echoed and an empty body. -/
theorem cors_localhost_policy_witness :
    handleRequest "/srv/dash" ⟨[]⟩ emptyDB 0
        ⟨"GET", some "http://evil.example", "/", []⟩
      = ⟨403, [], .text "Forbidden"⟩ ∧
    handleRequest "/srv/dash" ⟨[]⟩ emptyDB 0
        ⟨"OPTIONS", some "http://localhost:3000", "/", []⟩
      = ⟨204, corsHeadersFor "http://localhost:3000", .empty⟩ :=
  ⟨(cors_localhost_policy "/srv/dash" ⟨[]⟩ emptyDB 0
      ⟨"GET", some "http://evil.example", "/", []⟩ "http://evil.example" rfl
      (by decide)).1
    (fun hspec => by
      have := (corsOriginAllowed_iff "http://evil.example").mpr hspec
      exact absurd this (by decide)),
   (cors_localhost_policy "/srv/dash" ⟨[]⟩ emptyDB 0
      ⟨"OPTIONS", some "http://localhost:3000", "/", []⟩ "http://localhost:3000" rfl
      (by decide)).2.2
    ((corsOriginAllowed_iff "http://localhost:3000").mp (by decide)) rfl⟩

/-- C9 (code bug): with dashboard root `/srv/dash`, the static request path
`/../dash2/secret.js` resolves to `/srv/dash2/secret.js` — a path that
escapes the root (it is not under `/srv/dash/`) — yet it passes the
`filePath.startsWith(dashboardDir)` string-prefix guard because the
sibling directory name extends the root's name, so the file is read and
served with 200 instead of being rejected with 403 as the guard's
"prevent path traversal outside dashboardDir" purpose requires. -/
theorem serveStatic_prefix_escape_bug :
    posixJoin "/srv/dash" (strDrop1Slash "/../dash2/secret.js") = "/srv/dash2/secret.js" ∧
    stripPre ("/srv/dash" ++ "/").data "/srv/dash2/secret.js".data = none ∧
    serveStatic "/srv/dash" ⟨[("/srv/dash2/secret.js", "SECRET")]⟩ "/../dash2/secret.js"
      = ⟨200, [("Content-Type", "application/javascript; charset=utf-8")], .file "SECRET"⟩ :=
  ⟨by decide, by decide, by decide⟩

end ToolGuard
